import Mathlib

/-!
Verification of the BookLog+ recommendation engine (`api/rec_engine.py`)
against its natural-language specification.

The Python source is shallowly embedded below: pure string manipulation is
translated to Lean functions over `String` / `List Char`, marshmallow schema
validation to `Except`-returning loaders, the parsed JSON model response to an
inductive `Json` type, and the bounded retry recursion of
`get_recommendations` / `get_quiz_recommendations` to structural recursion on
the remaining retry budget.  The generative model itself is an external,
untrusted collaborator; it is abstracted as an oracle mapping the attempt
number (and, for the history variant, the two chat messages) to an outcome.
-/

/-! ## Link Validator (`validate_goodreads_link`, rec_engine.py lines 26-39)

The Python function anchors the regular expression
`^https?://(?:www\.)?goodreads\.com/book/show/\d+` at the start of the input
(`re.match`) with no `re.IGNORECASE` flag, so matching is case-sensitive.
`dropLit lit s` consumes the literal `lit` from the front of `s`; the two
optional groups (`s?` and `(?:www\.)?`) are rendered as the disjunction of
the try-with and try-without branches, which is exactly the backtracking
semantics of the regex. `\d` is modelled as an ASCII decimal digit. -/

def dropLit : List Char → List Char → Option (List Char)
  | [], s => some s
  | _ :: _, [] => none
  | l :: ls, c :: cs => if c = l then dropLit ls cs else none

def digitStart : List Char → Bool
  | [] => false
  | c :: _ => c.isDigit

def hasPrefixDigit (lit : String) (s : List Char) : Bool :=
  match dropLit lit.data s with
  | some r => digitStart r
  | none => false

/-- The regex `^https?://(?:www\.)?goodreads\.com/book/show/\d+` applied with
`re.match`: the two optional groups (`s?` and `(?:www\.)?`) expand to the
union of the four literal prefixes, each of which must be followed by at
least one decimal digit (trailing characters after the digit are
unconstrained, since the pattern is not end-anchored). -/
def goodreadsMatch (s : List Char) : Bool :=
  hasPrefixDigit "https://www.goodreads.com/book/show/" s ||
  hasPrefixDigit "https://goodreads.com/book/show/" s ||
  hasPrefixDigit "http://www.goodreads.com/book/show/" s ||
  hasPrefixDigit "http://goodreads.com/book/show/" s

/-- Embedding of `validate_goodreads_link`.  Python's `if not link` returns
`False` for `None` and for the empty string; otherwise the regex is applied. -/
def validate_goodreads_link : Option String → Bool
  | none => false
  | some s => if s = "" then false else goodreadsMatch s.data

/-- The pattern of §4.1 as written, but with the scheme and host taken
case-sensitively (lowercase literals): the string starts with
`http` or `https`, then `://`, an optional `www.`,
`goodreads.com/book/show/`, and at least one decimal digit; anything may
follow. -/
def GoodreadsSpec (s : List Char) : Prop :=
  ∃ scheme www d rest,
    (scheme = "http".data ∨ scheme = "https".data) ∧
    (www = ([] : List Char) ∨ www = "www.".data) ∧
    d.isDigit = true ∧
    s = scheme ++ "://".data ++ www ++ "goodreads.com/book/show/".data ++ d :: rest

/-- The Link Validator pattern exactly as claim C3 words it: scheme and host
matched case-insensitively, `/book/show/` path, then a decimal digit. -/
def ClaimPatternCI (s : List Char) : Prop :=
  ∃ scheme host d rest,
    (scheme.map Char.toLower = "http".data ∨ scheme.map Char.toLower = "https".data) ∧
    (host.map Char.toLower = "goodreads.com".data ∨
      host.map Char.toLower = "www.goodreads.com".data) ∧
    d.isDigit = true ∧
    s = scheme ++ "://".data ++ host ++ "/book/show/".data ++ d :: rest

/-! ## Input validation (`data/schema.py` and rec_engine.py lines 72-92)

A raw input record is a Python dict of string keys; only whether a value is a
string (and which string) matters to the marshmallow schemas, so values are
modelled as `PyVal`.  `BooksSchema`/`ToReadSchema` declare required `String`
fields and `Meta.unknown = EXCLUDE`, so `load` returns exactly the declared
fields when each is present and a string, and raises `ValidationError`
otherwise; unknown fields are silently dropped. -/

inductive PyVal where
  | str (s : String)
  | nonstr
deriving Repr, DecidableEq

def RawRecord := List (String × PyVal)

structure ReadRec where
  book_name : String
  author_name : String
  reflection : String
deriving Repr, DecidableEq

structure ToReadRec where
  book_name : String
  author_name : String
deriving Repr, DecidableEq

def getStrField : RawRecord → String → Option String
  | [], _ => none
  | (k, PyVal.str s) :: rest, key => if k = key then some s else getStrField rest key
  | (k, PyVal.nonstr) :: rest, key => if k = key then none else getStrField rest key

/-- `BooksSchema().load(entry)`: succeeds iff `book_name`, `author_name` and
`reflection` are all present and strings; unknown fields are excluded. -/
def loadBooks (entry : RawRecord) : Except Unit ReadRec :=
  match getStrField entry "book_name", getStrField entry "author_name",
      getStrField entry "reflection" with
  | some b, some a, some r => .ok ⟨b, a, r⟩
  | _, _, _ => .error ()

/-- `ToReadSchema().load(entry)`: requires `book_name` and `author_name`. -/
def loadToRead (entry : RawRecord) : Except Unit ToReadRec :=
  match getStrField entry "book_name", getStrField entry "author_name" with
  | some b, some a => .ok ⟨b, a⟩
  | _, _ => .error ()

/-- The loop at rec_engine.py lines 73-81: each entry is validated; a
`ValidationError` is caught, the entry skipped (with a printed log), and the
loop continues with the remaining entries. -/
def validateBooks : List RawRecord → List ReadRec
  | [] => []
  | e :: rest =>
    match loadBooks e with
    | .ok v => v :: validateBooks rest
    | .error _ => validateBooks rest

/-- The loop at rec_engine.py lines 84-92 for the to-read list. -/
def validateToRead : List RawRecord → List ToReadRec
  | [] => []
  | e :: rest =>
    match loadToRead e with
    | .ok v => v :: validateToRead rest
    | .error _ => validateToRead rest

/-! ## Prompt Builder (`build_prompt_from_data`, rec_engine.py lines 147-203)

The Python prompt interpolates two *lists of strings* into f-strings
(`f"{reflections}"`), which renders them with `repr`: brackets, comma-space
separators, quoted elements with backslash escapes.  `pyReprStr` models
CPython's `repr` for strings at the ASCII level (quote selection, escapes for
backslash/quote/newline/carriage-return/tab, `\xHH` for other ASCII control
characters; `repr`'s escaping of non-printable non-ASCII codepoints is not
modelled, and no theorem below depends on it).  The crucial point is that the
prompt text is a pure function of the validated records.

`get_recommendations` (lines 96-99) then splits the prompt on `"\n"`, sends
`strings[0]` as the system message and `"\n".join(strings[1:])` as the user
message; `pySplitNl`/`joinNl` embed Python's `str.split("\n")` and
`"\n".join`. -/

def hexDigitChar (n : Nat) : Char :=
  if n < 10 then Char.ofNat (48 + n) else Char.ofNat (87 + n)

def pyEscapeChar (q : Char) (c : Char) : List Char :=
  if c = '\\' then ['\\', '\\']
  else if c = q then ['\\', q]
  else if c = '\n' then ['\\', 'n']
  else if c = '\r' then ['\\', 'r']
  else if c = '\t' then ['\\', 't']
  else if c.toNat < 32 || c.toNat == 127 then
    ['\\', 'x', hexDigitChar (c.toNat / 16 % 16), hexDigitChar (c.toNat % 16)]
  else [c]

def pyQuoteChar (s : String) : Char :=
  if s.data.contains (Char.ofNat 39) && !(s.data.contains '"') then '"' else Char.ofNat 39

def pyReprStr (s : String) : String :=
  let q := pyQuoteChar s
  String.mk (q :: (s.data.flatMap (pyEscapeChar q)) ++ [q])

def pyReprList (xs : List String) : String :=
  "[" ++ String.intercalate ", " (xs.map pyReprStr) ++ "]"

/-- Lines 163-168: each read book is rendered as
`f"{book_name} by {author_name}. The reflection on this book is:\n {reflection}"`. -/
def formatReflection (book : ReadRec) : String :=
  book.book_name ++ " by " ++ book.author_name ++
    ". The reflection on this book is:\n " ++ book.reflection

/-- Lines 171-176: each to-read book is rendered as `f"{book_name} by {author_name}"`. -/
def formatNextRead (book : ToReadRec) : String :=
  book.book_name ++ " by " ++ book.author_name

/-- The first line of the prompt (lines 181-182), up to the first `\n`. -/
def personaLine : String :=
  "You are a lifelong librarian known for giving spot-on book recommendations. You love helping readers find books that match their taste, tone, and interests."

/-- The fixed trailing block of the prompt (lines 186-200): the output-shape
contract (exactly 3 objects, required fields, optional link with
omit-if-uncertain instruction) and the JSON structure example. -/
def contractBlock : String :=
  "Based on that, recommend EXACTLY 3 books I might enjoy next. You MUST format your response as a valid JSON array containing EXACTLY 3 objects. Each object MUST follow this structure:\n[\n  \x7b\n    \"title\": \"Book Title\",\n    \"author\": \"Author Name\",\n    \"description\": \"Your 1-2 sentence explanation of why you recommend this book\",\n    \"link\": \"OPTIONAL - Only include if you are absolutely certain of the correct Goodreads URL. Must start with https://www.goodreads.com/book/show/ followed by the book ID. If unsure, omit this field entirely.\"\n  \x7d,\n  \x7b...\x7d,\n  \x7b...\x7d\n]\n\nReturn ONLY the JSON array with no additional text. The response MUST be valid JSON and MUST contain exactly 3 recommendations. The link field is optional - only include it if you are 100% certain of the correct Goodreads URL. If you\x27re not certain about a Goodreads link, omit the link field entirely rather than guessing."

/-- Everything after the prompt's first `\n` (lines 183-200). -/
def promptRest (entries : List ReadRec) (to_read : List ToReadRec) : String :=
  "Here\x27s a list of books or personal reflections on books I\x27ve enjoyed:\n " ++
  pyReprList (entries.map formatReflection) ++ "\n " ++
  "Here\x27s a list of books I\x27m thinking of reading next:\n " ++
  pyReprList (to_read.map formatNextRead) ++ "\n " ++
  "Carefully analyze the themes, tone, and emotional impact to understand what I enjoy.\n" ++
  contractBlock

/-- Embedding of `build_prompt_from_data` (lines 147-203). -/
def build_prompt_from_data (entries : List ReadRec) (to_read : List ToReadRec) : String :=
  personaLine ++ "\n" ++ promptRest entries to_read

/-- Python's `s.split("\n")`: splits at every newline, keeping empty pieces;
never returns an empty list. -/
def pySplitNl : List Char → List (List Char)
  | [] => [[]]
  | c :: cs =>
    let r := pySplitNl cs
    if c = '\n' then [] :: r
    else (c :: r.headD []) :: r.tail

/-- Python's `"\n".join(pieces)`. -/
def joinNl : List (List Char) → List Char
  | [] => []
  | [l] => l
  | l :: ls => l ++ '\n' :: joinNl ls

/-- Lines 96-99 of `get_recommendations`: validate both input lists, build the
prompt, split it on `"\n"`; the first piece becomes the system message
(`instruction`), the rest re-joined become the user message (`inputPrompt`). -/
def recMessages (past_entries to_read : List RawRecord) : String × String :=
  let prompt := build_prompt_from_data (validateBooks past_entries) (validateToRead to_read)
  let strings := pySplitNl prompt.data
  (String.mk (strings.headD []), String.mk (joinNl strings.tail))

/-- Python's substring test `needle in hay` (used both for claims about the
prompt text and for `"title" in rec` when `rec` is a string). -/
def isPrefixCl : List Char → List Char → Bool
  | [], _ => true
  | _ :: _, [] => false
  | a :: as, b :: bs => a == b && isPrefixCl as bs

def containsSub : List Char → List Char → Bool
  | needle, [] => isPrefixCl needle []
  | needle, hay@(_ :: rest) => isPrefixCl needle hay || containsSub needle rest

/-! ## Model response processing (rec_engine.py lines 106-145 and 239-286)

`json.loads` of the model's text either raises `JSONDecodeError` (modelled as
`none`) or yields a Python value built from dicts, lists, strings, numbers,
booleans and `None`, modelled by `Json` (numbers as `Int`; float-valued
responses behave identically in every check below, since only the container
shape and string fields are inspected).  Dicts produced by `json.loads` have
unique keys; `lookupField` / `removeField` are their lookup and `del`.

The per-element checks translate Python operators exactly:
`key in rec` (`pyContains`) is key lookup for dicts, substring search for
strings, membership for lists, and a `TypeError` for every other value;
`rec["link"]` is only valid on dicts (a `TypeError` on strings and lists);
`validate_goodreads_link(v)` returns `False` on falsy values and raises
`TypeError` when `re.match` receives a truthy non-string. -/

inductive Json where
  | null
  | bool (b : Bool)
  | num (n : Int)
  | str (s : String)
  | arr (elems : List Json)
  | obj (fields : List (String × Json))

def lookupField : List (String × Json) → String → Option Json
  | [], _ => none
  | (k, v) :: rest, key => if k = key then some v else lookupField rest key

def hasField (fs : List (String × Json)) (key : String) : Bool :=
  (lookupField fs key).isSome

def removeField : List (String × Json) → String → List (String × Json)
  | [], _ => []
  | (k, v) :: rest, key =>
    if k = key then removeField rest key else (k, v) :: removeField rest key

/-- Python `needle in xs` for a list `xs` with a string needle: any element
equal to the string (equality with a non-string JSON value is `False`). -/
def strMem (key : String) : List Json → Bool
  | [] => false
  | Json.str s :: rest => s == key || strMem key rest
  | _ :: rest => strMem key rest

/-- Python truthiness of a JSON value (`not link`). -/
def pyFalsy : Json → Bool
  | .null => true
  | .bool b => !b
  | .num n => n == 0
  | .str s => s == ""
  | .arr xs => xs.isEmpty
  | .obj fs => fs.isEmpty

/-- Python `key in container`; `.error ()` is a `TypeError` (argument of type
int/float/bool/NoneType is not iterable). -/
def pyContains (container : Json) (key : String) : Except Unit Bool :=
  match container with
  | .obj fs => .ok (hasField fs key)
  | .str s => .ok (containsSub key.data s.data)
  | .arr xs => .ok (strMem key xs)
  | _ => .error ()

/-- `validate_goodreads_link(rec["link"])` on an arbitrary JSON value: falsy
values short-circuit to `False`; `re.match` on a truthy non-string raises
`TypeError`. -/
def jsonLinkValid (v : Json) : Except Unit Bool :=
  if pyFalsy v then .ok false
  else match v with
    | .str s => .ok (goodreadsMatch s.data)
    | _ => .error ()

def requiredKeys : List String := ["title", "author", "description"]

/-- `all(key in rec for key in ["title", "author", "description"])`,
short-circuiting left to right. -/
def allKeysIn : List String → Json → Except Unit Bool
  | [], _ => .ok true
  | k :: ks, rec =>
    match pyContains rec k with
    | .error e => .error e
    | .ok false => .ok false
    | .ok true => allKeysIn ks rec

/-- Lines 137-139 / 273-275: `if "link" in rec and not validate_goodreads_link(rec["link"]): del rec["link"]`. -/
def cleanLink (rec : Json) : Except Unit Json :=
  match pyContains rec "link" with
  | .error e => .error e
  | .ok false => .ok rec
  | .ok true =>
    match rec with
    | .obj fs =>
      match lookupField fs "link" with
      | some v =>
        match jsonLinkValid v with
        | .error e => .error e
        | .ok true => .ok rec
        | .ok false => .ok (.obj (removeField fs "link"))
      | none => .ok rec
    | _ => .error ()

/-- Outcome of the `for rec in recs` loop (lines 131-139): either every
element passed the key check (with links cleaned, in order), or some element
was missing a required key (`retry`), or a check raised `TypeError`. -/
inductive StepOut where
  | retry
  | typeError
  | ok (cleaned : List Json)

def processRecs : List Json → StepOut
  | [] => .ok []
  | rec :: rest =>
    match allKeysIn requiredKeys rec with
    | .error _ => .typeError
    | .ok false => .retry
    | .ok true =>
      match cleanLink rec with
      | .error _ => .typeError
      | .ok rec2 =>
        match processRecs rest with
        | .ok cleaned => .ok (rec2 :: cleaned)
        | r => r

/-- Lines 121-142: parse result handling.  `none` (a `JSONDecodeError`) and a
non-list or wrong-length parse both lead to a retry. -/
def processResponse : Option Json → StepOut
  | none => .retry
  | some (.arr elems) => if elems.length = 3 then processRecs elems else .retry
  | some _ => .retry

/-- One model invocation either raises (network/auth transport failure) or
returns text whose `json.loads` result is the `Option Json`. -/
inductive ModelOutcome where
  | transportError
  | response (parsed : Option Json)

/-- Result of `get_recommendations` / `get_quiz_recommendations`: the
returned (cleaned) list — the Python function returns `json.dumps` of it —
or an uncaught exception. -/
inductive RecResult where
  | ok (recs : List Json)
  | valueError
  | typeError
  | transportError

/-! ## The bounded retry loops

The Python functions recurse with `retry_count + 1` and guard on
`retry_count >= 3`; the recursion is embedded structurally on the remaining
attempt budget `n = 3 - retry_count` (so the guard `retry_count >= 3` is the
`n = 0` case, and the call number of the current attempt is `3 - n`).  Each
embedding also counts model calls (first component of the result), which the
Python code performs but does not record.

In `get_recommendations` the API call at line 107 is OUTSIDE the
`try:` of line 121, and the `except` at line 143 catches only
`json.JSONDecodeError`; hence a transport failure, a `TypeError` from the
checks, and the `ValueError` from an exhausted recursive call all propagate
to the caller uncaught.

In `get_quiz_recommendations` the whole body sits inside `try: ... except
Exception:` (lines 239-286).  A transport failure or an in-loop `TypeError`
is caught by that handler, which retries (line 286, itself unprotected).
The inner retry call sites (lines 264, 271, 281) are lexically inside the
outer `try`, so an exception raised by such a recursive call (e.g. the
`ValueError` of an exhausted deeper attempt) is caught by the outer handler,
which then retries once more from the handler. -/

/-- `get_recommendations` from `retry_count = 3 - n`; the model oracle
receives the call number and the two messages of lines 110-111. -/
def recAux (model : Nat → String → String → ModelOutcome)
    (past_entries to_read : List RawRecord) : Nat → Nat × RecResult
  | 0 => (0, .valueError)
  | n + 1 =>
    let msgs := recMessages past_entries to_read
    match model (3 - (n + 1)) msgs.1 msgs.2 with
    | .transportError => (1, .transportError)
    | .response parsed =>
      match processResponse parsed with
      | .ok out => (1, .ok out)
      | .typeError => (1, .typeError)
      | .retry =>
        let r := recAux model past_entries to_read n
        (r.1 + 1, r.2)

/-- `get_recommendations(past_entries, to_read)` with `retry_count = 0`,
returning (number of model calls, result). -/
def get_recommendations (model : Nat → String → String → ModelOutcome)
    (past_entries to_read : List RawRecord) : Nat × RecResult :=
  recAux model past_entries to_read 3

/-- `get_quiz_recommendations` from `retry_count = 3 - n`; `idx` is the index
of the next model call (the oracle is indexed by global call number, since
the handler-driven double retry can issue several calls at the same
`retry_count`). -/
def quizAux (model : Nat → ModelOutcome) : Nat → Nat → Nat × RecResult
  | 0, _ => (0, .valueError)
  | n + 1, idx =>
    match model idx with
    | .transportError =>
      let r := quizAux model n (idx + 1)
      (r.1 + 1, r.2)
    | .response parsed =>
      match processResponse parsed with
      | .ok out => (1, .ok out)
      | .typeError =>
        let r := quizAux model n (idx + 1)
        (r.1 + 1, r.2)
      | .retry =>
        let r1 := quizAux model n (idx + 1)
        match r1.2 with
        | .ok out => (r1.1 + 1, .ok out)
        | _ =>
          let r2 := quizAux model n (idx + 1 + r1.1)
          (r1.1 + r2.1 + 1, r2.2)

/-- `get_quiz_recommendations(quiz_responses)` with `retry_count = 0`. -/
def get_quiz_recommendations (model : Nat → ModelOutcome) : Nat × RecResult :=
  quizAux model 3 0

/-! ## Concrete fixtures for counterexamples and witnesses -/

/-- A syntactically well-formed recommendation object. -/
def goodRec : Json :=
  .obj [("title", .str "Foundation"), ("author", .str "Isaac Asimov"),
    ("description", .str "A classic of social science fiction.")]

/-- An object whose three required fields are present but EMPTY strings. -/
def emptyFieldsRec : Json :=
  .obj [("title", .str ""), ("author", .str ""), ("description", .str "")]

/-- A bare string containing "title", "author" and "description" as
substrings (Python's `"title" in rec` is substring search on strings). -/
def substrOnlyRec : Json := .str "title author description"

/-- A recommendation carrying a non-Goodreads link. -/
def badLinkRec : Json :=
  .obj [("title", .str "Dune"), ("author", .str "Frank Herbert"),
    ("description", .str "Epic."), ("link", .str "https://example.com/not-goodreads")]

/-- A recommendation carrying an extra field outside the declared schema. -/
def extraFieldRec : Json :=
  .obj [("title", .str "Dune"), ("author", .str "Frank Herbert"),
    ("description", .str "Epic."), ("mood", .str "dark")]

/-- The fields of `badLinkRec`, exposed for the C4 witness. -/
def badLinkFields : List (String × Json) :=
  [("title", .str "Dune"), ("author", .str "Frank Herbert"),
    ("description", .str "Epic."), ("link", .str "https://example.com/not-goodreads")]

/-! ## Synopsis Generator (`generate_book_synopsis`, rec_engine.py lines 356-423)

The whole body sits in `try: ... except Exception:`; the model interaction is
abstracted as `Except Unit String` (`.error ()` = any exception raised while
calling the model or reading its reply).  On success the reply is stripped
and one layer of surrounding double quotes removed; on failure a fixed
template embedding only the author name is returned. -/

def pyWhitespace (c : Char) : Bool :=
  c == ' ' || c == '\t' || c == '\n' || c == '\r' || c == Char.ofNat 11 || c == Char.ofNat 12

/-- Python `str.strip()` (ASCII whitespace). -/
def pyStrip (s : String) : String :=
  String.mk (((s.data.dropWhile pyWhitespace).reverse.dropWhile pyWhitespace).reverse)

/-- `synopsis.startswith('"') and synopsis.endswith('"')`. -/
def quoteWrapped (s : String) : Bool :=
  (s.data.head? == some '"') && (s.data.getLast? == some '"')

/-- `synopsis[1:-1]`. -/
def dropQuotes (s : String) : String :=
  String.mk ((s.data.drop 1).dropLast)

/-- Embedding of `generate_book_synopsis(book_name, author_name, source)`;
`modelResult` is the fate of the API call. -/
def generate_book_synopsis (modelResult : Except Unit String)
    (book_name author_name source : String) : String :=
  match modelResult with
  | .ok content =>
    let synopsis := pyStrip content
    if quoteWrapped synopsis then dropQuotes synopsis else synopsis
  | .error _ =>
    if source = "history" then
      "A great read by " ++ author_name ++ ". Highly recommend checking it out!"
    else
      "Excited to read this book by " ++ author_name ++ ". Looks like it\x27s going to be amazing!"

/-! ## Theorems -/

theorem dropLit_some_iff (lit : List Char) : ∀ s r : List Char,
    dropLit lit s = some r ↔ s = lit ++ r := by
  induction lit with
  | nil => intro s r; simp [dropLit]
  | cons l ls ih =>
    intro s r
    cases s with
    | nil => simp [dropLit]
    | cons c cs =>
      by_cases hc : c = l
      · simp [dropLit, hc, ih cs r]
      · simp [dropLit, hc]

theorem hasPrefixDigit_iff (lit : String) (s : List Char) :
    hasPrefixDigit lit s = true ↔
      ∃ d rest, d.isDigit = true ∧ s = lit.data ++ d :: rest := by
  unfold hasPrefixDigit
  cases h : dropLit lit.data s with
  | none =>
    simp only [Bool.false_eq_true, false_iff]
    rintro ⟨d, rest, _, hs⟩
    rw [(dropLit_some_iff _ s (d :: rest)).mpr hs] at h
    exact Option.noConfusion h
  | some r =>
    have hr := (dropLit_some_iff _ s r).mp h
    subst hr
    cases r with
    | nil =>
      simp only [digitStart, Bool.false_eq_true, false_iff]
      rintro ⟨d, rest, _, hs⟩
      exact List.noConfusion (List.append_inj_right hs rfl)
    | cons d rest =>
      simp only [digitStart]
      constructor
      · intro hd; exact ⟨d, rest, hd, rfl⟩
      · rintro ⟨d', rest', hd', hs⟩
        cases List.append_inj_right hs rfl
        exact hd'

theorem prefix_eq_https_www (x : List Char) :
    "https".data ++ "://".data ++ "www.".data ++ "goodreads.com/book/show/".data ++ x
      = "https://www.goodreads.com/book/show/".data ++ x := by
  exact congrArg (· ++ x) (by decide)

theorem prefix_eq_https (x : List Char) :
    "https".data ++ "://".data ++ ([] : List Char) ++ "goodreads.com/book/show/".data ++ x
      = "https://goodreads.com/book/show/".data ++ x := by
  exact congrArg (· ++ x) (by decide)

theorem prefix_eq_http_www (x : List Char) :
    "http".data ++ "://".data ++ "www.".data ++ "goodreads.com/book/show/".data ++ x
      = "http://www.goodreads.com/book/show/".data ++ x := by
  exact congrArg (· ++ x) (by decide)

theorem prefix_eq_http (x : List Char) :
    "http".data ++ "://".data ++ ([] : List Char) ++ "goodreads.com/book/show/".data ++ x
      = "http://goodreads.com/book/show/".data ++ x := by
  exact congrArg (· ++ x) (by decide)

theorem goodreadsMatch_iff (s : List Char) :
    goodreadsMatch s = true ↔ GoodreadsSpec s := by
  unfold goodreadsMatch GoodreadsSpec
  simp only [Bool.or_eq_true, hasPrefixDigit_iff]
  constructor
  · rintro (((⟨d, rest, hd, hs⟩ | ⟨d, rest, hd, hs⟩) | ⟨d, rest, hd, hs⟩) | ⟨d, rest, hd, hs⟩)
    · exact ⟨"https".data, "www.".data, d, rest, Or.inr rfl, Or.inr rfl, hd,
        hs.trans (prefix_eq_https_www (d :: rest)).symm⟩
    · exact ⟨"https".data, [], d, rest, Or.inr rfl, Or.inl rfl, hd,
        hs.trans (prefix_eq_https (d :: rest)).symm⟩
    · exact ⟨"http".data, "www.".data, d, rest, Or.inl rfl, Or.inr rfl, hd,
        hs.trans (prefix_eq_http_www (d :: rest)).symm⟩
    · exact ⟨"http".data, [], d, rest, Or.inl rfl, Or.inl rfl, hd,
        hs.trans (prefix_eq_http (d :: rest)).symm⟩
  · rintro ⟨scheme, www, d, rest, hscheme | hscheme, hwww | hwww, hd, hs⟩ <;>
      subst hscheme <;> subst hwww
    · exact Or.inr ⟨d, rest, hd, hs.trans (prefix_eq_http (d :: rest))⟩
    · exact Or.inl (Or.inr ⟨d, rest, hd, hs.trans (prefix_eq_http_www (d :: rest))⟩)
    · exact Or.inl (Or.inl (Or.inr ⟨d, rest, hd, hs.trans (prefix_eq_https (d :: rest))⟩))
    · exact Or.inl (Or.inl (Or.inl ⟨d, rest, hd, hs.trans (prefix_eq_https_www (d :: rest))⟩))

/-- Claim C3 (amended): `validate_goodreads_link` returns false for empty or
absent input, and returns true iff the string matches from its start the
pattern `http(s)://[www.]goodreads.com/book/show/<digit>...` with the scheme
and host matched case-SENSITIVELY (the regex has no `re.IGNORECASE` flag, so
only lowercase `http(s)`/`www.goodreads.com` forms are accepted); in
particular it returns true for
"https://www.goodreads.com/book/show/12345-title" and false for
"https://goodreads.com/book/show/abc", "", and None. -/
theorem c3_link_validator_amended :
    validate_goodreads_link none = false ∧
    validate_goodreads_link (some "") = false ∧
    (∀ s : String, validate_goodreads_link (some s) = true ↔ GoodreadsSpec s.data) ∧
    validate_goodreads_link (some "https://www.goodreads.com/book/show/12345-title") = true ∧
    validate_goodreads_link (some "https://goodreads.com/book/show/abc") = false := by
  refine ⟨rfl, rfl, ?_, by decide, by decide⟩
  intro s
  by_cases h : s = ""
  · subst h
    rw [show validate_goodreads_link (some "") = false from rfl]
    simp only [Bool.false_eq_true, false_iff]
    rintro ⟨scheme, www, d, rest, hscheme, hwww, hd, hs⟩
    have : (scheme ++ "://".data ++ www ++ "goodreads.com/book/show/".data) ++ d :: rest
        = [] := hs.symm
    rcases List.append_eq_nil.mp this with ⟨_, h2⟩
    exact List.noConfusion h2
  · simp only [validate_goodreads_link, if_neg h]
    exact goodreadsMatch_iff s.data

/-- Claim C3 counterexample: the claim's pattern is case-insensitive in scheme
and host, so it accepts "HTTPS://www.goodreads.com/book/show/12345"; but
`validate_goodreads_link` (whose regex is compiled without `re.IGNORECASE`)
returns false on that very string.  The claim's "returns true iff the string
matches ... with case-insensitive scheme/host" is therefore false on the
code. -/
theorem c3_link_validator_counterexample :
    ClaimPatternCI "HTTPS://www.goodreads.com/book/show/12345".data ∧
    validate_goodreads_link (some "HTTPS://www.goodreads.com/book/show/12345") = false := by
  constructor
  · exact ⟨"HTTPS".data, "www.goodreads.com".data, '1', "2345".data,
      Or.inr (by decide), Or.inr (by decide), by decide, by decide⟩
  · decide

theorem validateBooks_drop (pre post : List RawRecord) (bad : RawRecord)
    (hbad : loadBooks bad = .error ()) :
    validateBooks (pre ++ bad :: post) = validateBooks pre ++ validateBooks post := by
  induction pre with
  | nil => simp [validateBooks, hbad]
  | cons e pre ih =>
    cases he : loadBooks e with
    | ok v => simp [validateBooks, he, ih]
    | error u => simp [validateBooks, he, ih]

theorem validateToRead_drop (pre post : List RawRecord) (bad : RawRecord)
    (hbad : loadToRead bad = .error ()) :
    validateToRead (pre ++ bad :: post) = validateToRead pre ++ validateToRead post := by
  induction pre with
  | nil => simp [validateToRead, hbad]
  | cons e pre ih =>
    cases he : loadToRead e with
    | ok v => simp [validateToRead, he, ih]
    | error u => simp [validateToRead, he, ih]

/-- Claim C7: a record failing schema validation (required field missing or
not a string) is dropped — the `ValidationError` is caught and logged — and
the remaining records are still processed; the validation loops are total
functions, so a single malformed entry never aborts the request.  Stated for
both the reading-history loop (`BooksSchema`) and the to-read loop
(`ToReadSchema`). -/
theorem c7_invalid_records_skipped :
    (∀ (pre post : List RawRecord) (bad : RawRecord), loadBooks bad = .error () →
      validateBooks (pre ++ bad :: post) = validateBooks pre ++ validateBooks post) ∧
    (∀ (pre post : List RawRecord) (bad : RawRecord), loadToRead bad = .error () →
      validateToRead (pre ++ bad :: post) = validateToRead pre ++ validateToRead post) :=
  ⟨validateBooks_drop, validateToRead_drop⟩

/-- Witness for C7: a concrete malformed entry (missing `author_name` and
`reflection`) between two valid ones is dropped while both neighbours are
validated. -/
theorem c7_witness :
    validateBooks ([[("book_name", PyVal.str "Dune"), ("author_name", PyVal.str "Frank Herbert"),
        ("reflection", PyVal.str "ecology and power")]] ++
      [("book_name", PyVal.str "Orphan")] ::
        [[("book_name", PyVal.str "1984"), ("author_name", PyVal.str "George Orwell"),
          ("reflection", PyVal.str "surveillance"), ("extra", PyVal.nonstr)]]) =
      validateBooks [[("book_name", PyVal.str "Dune"), ("author_name", PyVal.str "Frank Herbert"),
        ("reflection", PyVal.str "ecology and power")]] ++
      validateBooks [[("book_name", PyVal.str "1984"), ("author_name", PyVal.str "George Orwell"),
        ("reflection", PyVal.str "surveillance"), ("extra", PyVal.nonstr)]] :=
  c7_invalid_records_skipped.1 _ _ _ rfl

/-- Claim C5: the history prompt builder is a deterministic pure function of
its inputs — two calls on identical record sequences produce byte-identical
output (there is no randomness and no timestamp in its definition). -/
theorem c5_prompt_deterministic (e1 e2 : List ReadRec) (t1 t2 : List ToReadRec)
    (he : e1 = e2) (ht : t1 = t2) :
    build_prompt_from_data e1 t1 = build_prompt_from_data e2 t2 := by
  rw [he, ht]

/-- Witness for C5 at a concrete reading history. -/
theorem c5_witness :
    build_prompt_from_data [⟨"Dune", "Frank Herbert", "ecology and power"⟩] [⟨"1984", "George Orwell"⟩]
      = build_prompt_from_data [⟨"Dune", "Frank Herbert", "ecology and power"⟩] [⟨"1984", "George Orwell"⟩] :=
  c5_prompt_deterministic _ _ _ _ rfl rfl

theorem containsSub_append_left (n : List Char) :
    ∀ a b : List Char, containsSub n b = true → containsSub n (a ++ b) = true := by
  intro a
  induction a with
  | nil => intro b h; exact h
  | cons c a ih =>
    intro b h
    show (isPrefixCl n (c :: (a ++ b)) || containsSub n (a ++ b)) = true
    exact Bool.or_eq_true_iff.mpr (Or.inr (ih b h))

theorem pySplitNl_ne_nil : ∀ s, pySplitNl s ≠ []
  | [] => by simp [pySplitNl]
  | c :: cs => by
    simp only [pySplitNl]
    split <;> simp

theorem pySplitNl_append (a b : List Char) (h : '\n' ∉ a) :
    pySplitNl (a ++ '\n' :: b) = a :: pySplitNl b := by
  induction a with
  | nil => simp [pySplitNl]
  | cons c a ih =>
    rw [List.mem_cons, not_or] at h
    obtain ⟨hc, ha⟩ := h
    have hcn : ¬(c = '\n') := fun hcc => hc hcc.symm
    simp [pySplitNl, ih ha, hcn]

theorem joinNl_cons (c : Char) (h : List Char) (t : List (List Char)) :
    joinNl ((c :: h) :: t) = c :: joinNl (h :: t) := by
  cases t with
  | nil => rfl
  | cons t ts => simp [joinNl]

theorem joinNl_pySplitNl : ∀ b, joinNl (pySplitNl b) = b := by
  intro b
  induction b with
  | nil => rfl
  | cons c cs ih =>
    cases hsplit : pySplitNl cs with
    | nil => exact absurd hsplit (pySplitNl_ne_nil cs)
    | cons hd tl =>
      rw [hsplit] at ih
      by_cases hc : c = '\n'
      · subst hc
        simp only [pySplitNl, hsplit, if_pos rfl]
        show ([] : List Char) ++ '\n' :: joinNl (hd :: tl) = '\n' :: cs
        rw [List.nil_append, ih]
      · simp only [pySplitNl, hsplit, if_neg hc, List.headD_cons, List.tail_cons]
        rw [joinNl_cons, ih]

theorem string_mk_data (s : String) : String.mk s.data = s := rfl

theorem build_prompt_data (e : List ReadRec) (t : List ToReadRec) :
    (build_prompt_from_data e t).data
      = personaLine.data ++ '\n' :: (promptRest e t).data := by
  show ((personaLine ++ "\n") ++ promptRest e t).data = _
  rw [String.data_append, String.data_append, List.append_assoc]
  rfl

theorem personaLine_no_newline : '\n' ∉ personaLine.data := by decide

/-- For every input, the system message computed at lines 96-98 is exactly the
persona line: the first `"\n"` of the prompt occurs right after it, before
any interpolated data. -/
theorem recMessages_fst (p t : List RawRecord) : (recMessages p t).1 = personaLine := by
  simp only [recMessages]
  rw [build_prompt_data, pySplitNl_append _ _ personaLine_no_newline]
  simp [string_mk_data]

/-- For every input, the user message computed at line 99 is everything after
the first newline, unchanged (split followed by join on the same separator). -/
theorem recMessages_snd (p t : List RawRecord) :
    (recMessages p t).2 = promptRest (validateBooks p) (validateToRead t) := by
  simp only [recMessages]
  rw [build_prompt_data, pySplitNl_append _ _ personaLine_no_newline]
  simp [joinNl_pySplitNl, string_mk_data]

theorem contains_in_promptRest (n : List Char) (h : containsSub n contractBlock.data = true)
    (e : List ReadRec) (t : List ToReadRec) :
    containsSub n (promptRest e t).data = true := by
  unfold promptRest
  rw [String.data_append]
  exact containsSub_append_left n _ _ h

set_option maxRecDepth 40000 in
/-- Claim C6 (amended): for every input to `get_recommendations`, the
system-level instruction actually sent is only the librarian persona line
(which nowhere mentions the number 3); the output-shape contract — exactly 3
items, the required `"title"`/`"author"`/`"description"` fields, the optional
link with the omit-if-uncertain instruction — is stated in the user-level
message, together with the serialized reading history.  (The prompt's first
`"\n"` falls right after the persona sentence, and line 98 takes only
`strings[0]` as the system message.) -/
theorem c6_messages_amended (past to_read : List RawRecord) :
    (recMessages past to_read).1 = personaLine ∧
    containsSub "3".data personaLine.data = false ∧
    containsSub "EXACTLY 3".data ((recMessages past to_read).2).data = true ∧
    containsSub "\"title\"".data ((recMessages past to_read).2).data = true ∧
    containsSub "\"author\"".data ((recMessages past to_read).2).data = true ∧
    containsSub "\"description\"".data ((recMessages past to_read).2).data = true ∧
    containsSub "The link field is optional".data ((recMessages past to_read).2).data = true ∧
    containsSub "omit the link field entirely".data ((recMessages past to_read).2).data = true := by
  refine ⟨recMessages_fst past to_read, by decide, ?_, ?_, ?_, ?_, ?_, ?_⟩
  all_goals rw [recMessages_snd]
  all_goals exact contains_in_promptRest _ (by decide) _ _

/-- Claim C6 counterexample: at the concrete input `([], [])`, the
system-level instruction sent to the model (the first line of the prompt)
contains neither "3", "JSON", "title" nor "three": it does not state the
output-shape contract.  The claim that the system message "explicitly states
the output-shape contract" is false on the code — the contract text lands in
the user-level message because the prompt is split at its first newline. -/
theorem c6_counterexample :
    containsSub "3".data ((recMessages [] []).1).data = false ∧
    containsSub "JSON".data ((recMessages [] []).1).data = false ∧
    containsSub "title".data ((recMessages [] []).1).data = false ∧
    containsSub "three".data ((recMessages [] []).1).data = false := by
  rw [recMessages_fst]
  exact ⟨by decide, by decide, by decide, by decide⟩

theorem allKeysIn_ok_true : ∀ (ks : List String) (rec : Json),
    allKeysIn ks rec = .ok true → ∀ k ∈ ks, pyContains rec k = .ok true := by
  intro ks
  induction ks with
  | nil => intro rec _ k hk; exact absurd hk (List.not_mem_nil k)
  | cons k0 ks ih =>
    intro rec h k hk
    rcases List.mem_cons.mp hk with hk0 | hks
    · subst hk0
      cases hc : pyContains rec k with
      | error e => rw [allKeysIn, hc] at h; exact Except.noConfusion h
      | ok b =>
        cases b with
        | false => rw [allKeysIn, hc] at h; exact absurd (Except.ok.inj h) (by simp)
        | true => rfl
    · cases hc : pyContains rec k0 with
      | error e => rw [allKeysIn, hc] at h; exact Except.noConfusion h
      | ok b =>
        cases b with
        | false => rw [allKeysIn, hc] at h; exact absurd (Except.ok.inj h) (by simp)
        | true => rw [allKeysIn, hc] at h; exact ih rec h k hks

theorem processRecs_get : ∀ (rs out : List Json), processRecs rs = .ok out →
    out.length = rs.length ∧
    ∀ i r, rs.get? i = some r →
      ∃ e, out.get? i = some e ∧ allKeysIn requiredKeys r = .ok true ∧ cleanLink r = .ok e := by
  intro rs
  induction rs with
  | nil =>
    intro out h
    cases out with
    | nil => exact ⟨rfl, fun i r hir => by simp [List.get?] at hir⟩
    | cons o os => exact List.noConfusion (StepOut.ok.inj h)
  | cons rec rest ih =>
    intro out h
    rw [processRecs] at h
    cases hk : allKeysIn requiredKeys rec with
    | error e => rw [hk] at h; exact StepOut.noConfusion h
    | ok b =>
      cases b with
      | false => rw [hk] at h; exact StepOut.noConfusion h
      | true =>
        rw [hk] at h
        cases hc : cleanLink rec with
        | error e => rw [hc] at h; exact StepOut.noConfusion h
        | ok rec2 =>
          rw [hc] at h
          cases hrest : processRecs rest with
          | retry => rw [hrest] at h; exact StepOut.noConfusion h
          | typeError => rw [hrest] at h; exact StepOut.noConfusion h
          | ok cleaned =>
            rw [hrest] at h
            have hout : out = rec2 :: cleaned := (StepOut.ok.inj h).symm
            subst hout
            obtain ⟨hlen, hget⟩ := ih cleaned hrest
            refine ⟨by simp [hlen], ?_⟩
            intro i r hir
            cases i with
            | zero =>
              have hr : rec = r := by simpa using hir
              subst hr
              exact ⟨rec2, rfl, hk, hc⟩
            | succ j =>
              obtain ⟨e, he, hke, hce⟩ := hget j r (by simpa using hir)
              exact ⟨e, by simpa using he, hke, hce⟩

theorem processRecs_exists : ∀ rs : List Json,
    (∀ i r, rs.get? i = some r →
      allKeysIn requiredKeys r = .ok true ∧ ∃ e, cleanLink r = .ok e) →
    ∃ out, processRecs rs = .ok out := by
  intro rs
  induction rs with
  | nil => intro _; exact ⟨[], rfl⟩
  | cons rec rest ih =>
    intro h
    obtain ⟨hk, e, hc⟩ := h 0 rec rfl
    obtain ⟨cleaned, hcl⟩ := ih (fun i r hir => h (i + 1) r (by simpa using hir))
    exact ⟨e :: cleaned, by rw [processRecs, hk, hc, hcl]⟩

theorem lookupField_removeField_self : ∀ (fs : List (String × Json)) (k : String),
    lookupField (removeField fs k) k = none := by
  intro fs k
  induction fs with
  | nil => rfl
  | cons p rest ih =>
    obtain ⟨k0, v0⟩ := p
    by_cases hk : k0 = k
    · simp [removeField, hk, ih]
    · simp [removeField, lookupField, hk, ih]

theorem lookupField_removeField_ne : ∀ (fs : List (String × Json)) (k k' : String),
    k' ≠ k → lookupField (removeField fs k) k' = lookupField fs k' := by
  intro fs k k' hne
  induction fs with
  | nil => rfl
  | cons p rest ih =>
    obtain ⟨k0, v0⟩ := p
    by_cases hk : k0 = k
    · subst hk
      have : ¬(k0 = k') := fun h => hne h.symm
      simp [removeField, lookupField, this, ih]
    · simp only [removeField, if_neg hk, lookupField]
      by_cases hk' : k0 = k'
      · simp [hk']
      · simp [hk', ih]

/-- Inversion of `cleanLink` on a dict. -/
theorem cleanLink_obj (fs : List (String × Json)) (e : Json)
    (h : cleanLink (.obj fs) = .ok e) :
    (e = .obj fs ∧ ∀ v, lookupField fs "link" = some v → jsonLinkValid v = .ok true) ∨
    (∃ v, lookupField fs "link" = some v ∧ jsonLinkValid v = .ok false ∧
      e = .obj (removeField fs "link")) := by
  cases hl : lookupField fs "link" with
  | none =>
    simp only [cleanLink, pyContains, hasField, hl, Option.isSome_none] at h
    exact Or.inl ⟨(Except.ok.inj h).symm, fun v hv => Option.noConfusion hv⟩
  | some v =>
    cases hv : jsonLinkValid v with
    | error u =>
      simp only [cleanLink, pyContains, hasField, hl, Option.isSome_some, hv] at h
      exact Except.noConfusion h
    | ok b =>
      cases b with
      | true =>
        simp only [cleanLink, pyContains, hasField, hl, Option.isSome_some, hv] at h
        exact Or.inl ⟨(Except.ok.inj h).symm, fun v' hv' => by
          cases Option.some.inj hv'; exact hv⟩
      | false =>
        simp only [cleanLink, pyContains, hasField, hl, Option.isSome_some, hv] at h
        exact Or.inr ⟨v, rfl, hv, (Except.ok.inj h).symm⟩

/-- On a non-dict value, a successful `cleanLink` leaves the value unchanged
(the only other non-raising path is a string/list without `"link"`). -/
theorem cleanLink_nonobj (r e : Json) (hno : ∀ fs, r ≠ .obj fs)
    (h : cleanLink r = .ok e) : e = r := by
  cases r with
  | obj fs => exact absurd rfl (hno fs)
  | null => exact Except.noConfusion h
  | bool b => exact Except.noConfusion h
  | num n => exact Except.noConfusion h
  | str s =>
    cases hc : containsSub "link".data s.data with
    | false =>
      simp only [cleanLink, pyContains, hc] at h
      exact (Except.ok.inj h).symm
    | true =>
      simp only [cleanLink, pyContains, hc] at h
      exact Except.noConfusion h
  | arr xs =>
    cases hc : strMem "link" xs with
    | false =>
      simp only [cleanLink, pyContains, hc] at h
      exact (Except.ok.inj h).symm
    | true =>
      simp only [cleanLink, pyContains, hc] at h
      exact Except.noConfusion h

theorem jsonLinkValid_true (v : Json) (h : jsonLinkValid v = .ok true) :
    ∃ s, v = .str s ∧ validate_goodreads_link (some s) = true := by
  cases v with
  | null => simp [jsonLinkValid, pyFalsy] at h
  | bool b => cases b <;> simp [jsonLinkValid, pyFalsy] at h
  | num n =>
    cases hn : n == 0 <;> simp [jsonLinkValid, pyFalsy, hn] at h
  | arr xs => cases xs <;> simp [jsonLinkValid, pyFalsy] at h
  | obj fs => cases fs <;> simp [jsonLinkValid, pyFalsy] at h
  | str s =>
    by_cases hs : s = ""
    · subst hs; simp [jsonLinkValid, pyFalsy] at h
    · refine ⟨s, rfl, ?_⟩
      simp only [jsonLinkValid, pyFalsy, beq_iff_eq, hs, if_false] at h
      simp only [validate_goodreads_link, if_neg hs]
      exact Except.ok.inj h

theorem required_ne_link (k : String) (hk : k ∈ requiredKeys) : k ≠ "link" := by
  simp only [requiredKeys, List.mem_cons, List.not_mem_nil, or_false] at hk
  rcases hk with rfl | rfl | rfl <;> decide

/-- The required keys survive link cleaning: the accepted output elements
still contain `title`, `author` and `description`. -/
theorem keys_after_clean (r e : Json) (hk : allKeysIn requiredKeys r = .ok true)
    (hc : cleanLink r = .ok e) : ∀ k ∈ requiredKeys, pyContains e k = .ok true := by
  intro k hkmem
  have hr := allKeysIn_ok_true requiredKeys r hk k hkmem
  have hklink : k ≠ "link" := required_ne_link k hkmem
  by_cases hobj : ∃ fs, r = .obj fs
  · obtain ⟨fs, rfl⟩ := hobj
    rcases cleanLink_obj fs e hc with ⟨he, _⟩ | ⟨v, hv, hbad, he⟩
    · rw [he]; exact hr
    · rw [he]
      simp only [pyContains] at hr ⊢
      have h1 : hasField fs k = true := Except.ok.inj hr
      have h2 : hasField (removeField fs "link") k = hasField fs k := by
        simp [hasField, lookupField_removeField_ne fs "link" k hklink]
      rw [h2, h1]
  · have hne : ∀ fs, r ≠ .obj fs := fun fs hf => hobj ⟨fs, hf⟩
    rw [cleanLink_nonobj r e hne hc]
    exact hr

/-- A link still present in an accepted output object is a string accepted by
the Link Validator. -/
theorem link_after_clean (r e : Json) (hc : cleanLink r = .ok e)
    (fs : List (String × Json)) (he : e = .obj fs) (v : Json)
    (hv : lookupField fs "link" = some v) :
    ∃ s, v = .str s ∧ validate_goodreads_link (some s) = true := by
  by_cases hobj : ∃ gs, r = .obj gs
  · obtain ⟨gs, rfl⟩ := hobj
    rcases cleanLink_obj gs e hc with ⟨hee, hall⟩ | ⟨w, hw, hbad, hee⟩
    · have hgf : gs = fs := Json.obj.inj (hee ▸ he)
      subst hgf
      exact jsonLinkValid_true v (hall v hv)
    · have hgf : removeField gs "link" = fs := Json.obj.inj (hee ▸ he)
      subst hgf
      rw [lookupField_removeField_self] at hv
      exact Option.noConfusion hv
  · have hne : ∀ gs, r ≠ .obj gs := fun gs hgs => hobj ⟨gs, hgs⟩
    have her : e = r := cleanLink_nonobj r e hne hc
    have : r = .obj fs := by rw [← her, he]
    exact absurd this (hne fs)

theorem processResponse_ok (parsed : Option Json) (out : List Json)
    (h : processResponse parsed = .ok out) :
    ∃ rs, parsed = some (.arr rs) ∧ rs.length = 3 ∧ processRecs rs = .ok out := by
  cases parsed with
  | none => exact StepOut.noConfusion h
  | some j =>
    cases j with
    | arr elems =>
      by_cases hlen : elems.length = 3
      · refine ⟨elems, rfl, hlen, ?_⟩
        simpa [processResponse, hlen] using h
      · rw [processResponse, if_neg hlen] at h
        exact StepOut.noConfusion h
    | null => exact StepOut.noConfusion h
    | bool b => exact StepOut.noConfusion h
    | num n => exact StepOut.noConfusion h
    | str s => exact StepOut.noConfusion h
    | obj fs => exact StepOut.noConfusion h

theorem recAux_ok (model : Nat → String → String → ModelOutcome)
    (p t : List RawRecord) : ∀ (n m : Nat) (out : List Json),
    recAux model p t n = (m, .ok out) →
    ∃ rs, rs.length = 3 ∧ processRecs rs = .ok out := by
  intro n
  induction n with
  | zero =>
    intro m out h
    exact RecResult.noConfusion (congrArg Prod.snd h)
  | succ n ih =>
    intro m out h
    cases hm : model (3 - (n + 1)) (recMessages p t).1 (recMessages p t).2 with
    | transportError =>
      simp only [recAux, hm] at h
      exact RecResult.noConfusion (congrArg Prod.snd h)
    | response parsed =>
      cases hp : processResponse parsed with
      | ok out' =>
        simp only [recAux, hm, hp] at h
        have hoo : out' = out := RecResult.ok.inj (congrArg Prod.snd h)
        subst hoo
        obtain ⟨rs, _, hlen, hpr⟩ := processResponse_ok parsed out' hp
        exact ⟨rs, hlen, hpr⟩
      | typeError =>
        simp only [recAux, hm, hp] at h
        exact RecResult.noConfusion (congrArg Prod.snd h)
      | retry =>
        simp only [recAux, hm, hp] at h
        have h2 : (recAux model p t n).2 = .ok out := congrArg Prod.snd h
        exact ih _ out (by rw [← h2])

theorem quizAux_ok (model : Nat → ModelOutcome) : ∀ (n idx m : Nat) (out : List Json),
    quizAux model n idx = (m, .ok out) →
    ∃ rs, rs.length = 3 ∧ processRecs rs = .ok out := by
  intro n
  induction n with
  | zero =>
    intro idx m out h
    exact RecResult.noConfusion (congrArg Prod.snd h)
  | succ n ih =>
    intro idx m out h
    cases hm : model idx with
    | transportError =>
      simp only [quizAux, hm] at h
      have h2 : (quizAux model n (idx + 1)).2 = .ok out := congrArg Prod.snd h
      exact ih _ _ out (by rw [← h2])
    | response parsed =>
      cases hp : processResponse parsed with
      | ok out' =>
        simp only [quizAux, hm, hp] at h
        have hoo : out' = out := RecResult.ok.inj (congrArg Prod.snd h)
        subst hoo
        obtain ⟨rs, _, hlen, hpr⟩ := processResponse_ok parsed out' hp
        exact ⟨rs, hlen, hpr⟩
      | typeError =>
        simp only [quizAux, hm, hp] at h
        have h2 : (quizAux model n (idx + 1)).2 = .ok out := congrArg Prod.snd h
        exact ih _ _ out (by rw [← h2])
      | retry =>
        simp only [quizAux, hm, hp] at h
        cases hr1 : (quizAux model n (idx + 1)).2 with
        | ok out1 =>
          rw [hr1] at h
          have hoo : out1 = out := RecResult.ok.inj (congrArg Prod.snd h)
          subst hoo
          exact ih _ _ out1 (by rw [← hr1])
        | valueError =>
          rw [hr1] at h
          have h2 : (quizAux model n (idx + 1 + (quizAux model n (idx + 1)).1)).2 = .ok out :=
            congrArg Prod.snd h
          exact ih _ _ out (by rw [← h2])
        | typeError =>
          rw [hr1] at h
          have h2 : (quizAux model n (idx + 1 + (quizAux model n (idx + 1)).1)).2 = .ok out :=
            congrArg Prod.snd h
          exact ih _ _ out (by rw [← h2])
        | transportError =>
          rw [hr1] at h
          have h2 : (quizAux model n (idx + 1 + (quizAux model n (idx + 1)).1)).2 = .ok out :=
            congrArg Prod.snd h
          exact ih _ _ out (by rw [← h2])

/-- Claim C1 (amended): whenever `get_recommendations` returns successfully,
the returned value is a list of exactly 3 elements; each element contains
`title`, `author` and `description` in the sense of Python's `in` operator
(for JSON objects: the keys are present — their values may be empty or of
any type), and if an element is an object that still has a `link` field, its
value is a string accepted by `validate_goodreads_link`. -/
theorem c1_output_shape_amended (model : Nat → String → String → ModelOutcome)
    (past to_read : List RawRecord) (m : Nat) (out : List Json)
    (h : get_recommendations model past to_read = (m, .ok out)) :
    out.length = 3 ∧
    ∀ e ∈ out,
      pyContains e "title" = .ok true ∧
      pyContains e "author" = .ok true ∧
      pyContains e "description" = .ok true ∧
      (∀ fs, e = .obj fs → ∀ v, lookupField fs "link" = some v →
        ∃ s, v = .str s ∧ validate_goodreads_link (some s) = true) := by
  obtain ⟨rs, hlen, hpr⟩ := recAux_ok model past to_read 3 m out h
  obtain ⟨holen, hget⟩ := processRecs_get rs out hpr
  refine ⟨holen.trans hlen, ?_⟩
  intro e he
  obtain ⟨i, hi⟩ := List.mem_iff_get.mp he
  have hio : out.get? i = some e := by rw [List.get?_eq_get]; exact congrArg some hi
  have hilt : (i : Nat) < rs.length := holen ▸ i.isLt
  obtain ⟨e', he', hk, hc⟩ := hget i (rs.get ⟨i, hilt⟩) (List.get?_eq_get hilt)
  have hee : e' = e := Option.some.inj ((he'.symm).trans hio)
  subst hee
  have hkeys := keys_after_clean _ e' hk hc
  exact ⟨hkeys "title" (by simp [requiredKeys]), hkeys "author" (by simp [requiredKeys]),
    hkeys "description" (by simp [requiredKeys]),
    fun fs hefs v hv => link_after_clean _ e' hc fs hefs v hv⟩

/-- Claim C1 counterexample: two accepted runs violating the claim as stated.
First, a response of 3 objects whose `title`/`author`/`description` are all
EMPTY strings is accepted and returned unchanged (the code checks only `key
in rec`, never that values are non-empty), so "non-empty title, author, and
description" is false.  Second, a response of 3 bare strings (each containing
"title", "author", "description" as substrings) is also accepted, so accepted
elements need not be objects with fields at all. -/
theorem c1_counterexample :
    get_recommendations (fun _ _ _ => .response (some (.arr [emptyFieldsRec, emptyFieldsRec, emptyFieldsRec]))) [] []
      = (1, .ok [emptyFieldsRec, emptyFieldsRec, emptyFieldsRec]) ∧
    lookupField [("title", Json.str ""), ("author", Json.str ""), ("description", Json.str "")] "title"
      = some (Json.str "") ∧
    get_recommendations (fun _ _ _ => .response (some (.arr [substrOnlyRec, substrOnlyRec, substrOnlyRec]))) [] []
      = (1, .ok [substrOnlyRec, substrOnlyRec, substrOnlyRec]) :=
  ⟨rfl, rfl, rfl⟩

/-- Witness for C1 at a concrete accepted response. -/
theorem c1_witness :
    ([goodRec, goodRec, goodRec] : List Json).length = 3 ∧
    ∀ e ∈ ([goodRec, goodRec, goodRec] : List Json),
      pyContains e "title" = .ok true ∧
      pyContains e "author" = .ok true ∧
      pyContains e "description" = .ok true ∧
      (∀ fs, e = .obj fs → ∀ v, lookupField fs "link" = some v →
        ∃ s, v = .str s ∧ validate_goodreads_link (some s) = true) :=
  c1_output_shape_amended (fun _ _ _ => .response (some (.arr [goodRec, goodRec, goodRec])))
    [] [] 1 [goodRec, goodRec, goodRec] rfl

/-- Claim C2: with a model stub whose every response is malformed
(non-JSON-parseable, i.e. `json.loads` raises), `get_recommendations` makes
exactly 3 model calls and then raises `ValueError`; the retry recursion is
bounded by `retry_count >= 3` (and the embedding is a total function, so it
cannot loop unboundedly). -/
theorem c2_retry_bound (model : Nat → String → String → ModelOutcome)
    (past to_read : List RawRecord)
    (h : ∀ n i u, model n i u = .response none) :
    get_recommendations model past to_read = (3, .valueError) := by
  simp [get_recommendations, recAux, h, processResponse]

/-- Witness for C2: the always-malformed stub. -/
theorem c2_witness :
    get_recommendations (fun _ _ _ => .response none) [] [] = (3, .valueError) :=
  c2_retry_bound _ [] [] (fun _ _ _ => rfl)

/-- Claim C4: in an accepted 3-element response, an element whose `link`
value fails the Link Validator (evaluating to `False`, e.g. the string
"https://example.com/not-goodreads") has its `link` field removed while every
other field is preserved verbatim; the recommendation itself is kept, the
response is accepted on that very call (no retry), and no failure occurs. -/
theorem c4_invalid_link_stripped (model : Nat → String → String → ModelOutcome)
    (past to_read : List RawRecord) (rs : List Json)
    (hm : ∀ i u, model 0 i u = .response (some (.arr rs)))
    (hlen : rs.length = 3)
    (hall : ∀ i r, rs.get? i = some r →
      allKeysIn requiredKeys r = .ok true ∧ ∃ e, cleanLink r = .ok e)
    (i : Nat) (fs : List (String × Json)) (v : Json)
    (hi : rs.get? i = some (.obj fs))
    (hv : lookupField fs "link" = some v)
    (hbad : jsonLinkValid v = .ok false) :
    ∃ out, get_recommendations model past to_read = (1, .ok out) ∧
      out.length = 3 ∧
      out.get? i = some (.obj (removeField fs "link")) ∧
      lookupField (removeField fs "link") "link" = none ∧
      (∀ k, k ≠ "link" → lookupField (removeField fs "link") k = lookupField fs k) := by
  obtain ⟨out, hpr⟩ := processRecs_exists rs hall
  have hrec : get_recommendations model past to_read = (1, .ok out) := by
    simp [get_recommendations, recAux, hm, processResponse, hlen, hpr]
  obtain ⟨holen, hget⟩ := processRecs_get rs out hpr
  obtain ⟨e, he, hk2, hc2⟩ := hget i (.obj fs) hi
  have hclean : cleanLink (.obj fs) = .ok (.obj (removeField fs "link")) := by
    simp [cleanLink, pyContains, hasField, hv, hbad]
  have he2 : e = .obj (removeField fs "link") := (Except.ok.inj (hclean.symm.trans hc2)).symm
  exact ⟨out, hrec, holen.trans hlen, he2 ▸ he, lookupField_removeField_self fs "link",
    fun k hk => lookupField_removeField_ne fs "link" k hk⟩

/-- Witness for C4: the middle element of a concrete accepted response
carries `link: "https://example.com/not-goodreads"`, which is removed while
its other fields survive. -/
theorem c4_witness :
    ∃ out, get_recommendations
        (fun _ _ _ => .response (some (.arr [goodRec, badLinkRec, goodRec]))) [] []
        = (1, .ok out) ∧
      out.length = 3 ∧
      out.get? 1 = some (.obj (removeField badLinkFields "link")) ∧
      lookupField (removeField badLinkFields "link") "link" = none ∧
      (∀ k, k ≠ "link" →
        lookupField (removeField badLinkFields "link") k = lookupField badLinkFields k) :=
  c4_invalid_link_stripped _ [] [] [goodRec, badLinkRec, goodRec]
    (fun _ _ => rfl) rfl
    (by
      intro i r hir
      match i, hir with
      | 0, hir =>
        cases Option.some.inj hir
        exact ⟨rfl, goodRec, rfl⟩
      | 1, hir =>
        cases Option.some.inj hir
        exact ⟨rfl, .obj (removeField badLinkFields "link"), rfl⟩
      | 2, hir =>
        cases Option.some.inj hir
        exact ⟨rfl, goodRec, rfl⟩)
    1 badLinkFields (.str "https://example.com/not-goodreads") rfl rfl rfl

/-- Claim C8 (amended): the two generators treat a model-service transport
failure differently.  In `get_recommendations` the API call (line 107) is
outside the `try:` block, so a transport failure on the first call propagates
immediately to the caller after exactly one model call — it does NOT trigger
a retry.  In `get_quiz_recommendations` the call is inside `try: ... except
Exception:` (lines 239-286), so the same failure is caught and the function
retries within the bounded loop (continuing with a decremented budget). -/
theorem c8_transport_amended :
    (∀ (model : Nat → String → String → ModelOutcome) (past to_read : List RawRecord),
      (∀ i u, model 0 i u = .transportError) →
      get_recommendations model past to_read = (1, .transportError)) ∧
    (∀ model : Nat → ModelOutcome, model 0 = .transportError →
      get_quiz_recommendations model
        = ((quizAux model 2 1).1 + 1, (quizAux model 2 1).2)) := by
  constructor
  · intro model past to_read h
    simp [get_recommendations, recAux, h]
  · intro model h
    show quizAux model 3 0 = _
    rw [show (3 : Nat) = 2 + 1 from rfl, quizAux, h]

/-- Claim C8 counterexample: a model that fails with a transport error on its
first call and would return a perfectly valid response on every later call.
`get_recommendations` stops after 1 call with the propagated transport error
(the claim says it would retry within the bounded loop); under the identical
oracle `get_quiz_recommendations` does retry and succeeds on call 1. -/
theorem c8_counterexample :
    get_recommendations
        (fun n _ _ => if n = 0 then .transportError
          else .response (some (.arr [goodRec, goodRec, goodRec]))) [] []
      = (1, .transportError) ∧
    get_quiz_recommendations
        (fun n => if n = 0 then .transportError
          else .response (some (.arr [goodRec, goodRec, goodRec])))
      = (2, .ok [goodRec, goodRec, goodRec]) :=
  ⟨rfl, rfl⟩

/-- Witness for C8 at the always-failing transport stub. -/
theorem c8_witness :
    get_recommendations (fun _ _ _ => .transportError) [] [] = (1, .transportError) ∧
    get_quiz_recommendations (fun _ => .transportError)
      = ((quizAux (fun _ => .transportError) 2 1).1 + 1,
        (quizAux (fun _ => .transportError) 2 1).2) :=
  ⟨c8_transport_amended.1 _ [] [] (fun _ _ => rfl), c8_transport_amended.2 _ rfl⟩

/-- Claim C10: the response-validation step shared by `get_recommendations`
and `get_quiz_recommendations` (lines 130-142 resp. 266-278) never filters
fields: in an accepted response, every returned object keeps each of its
fields verbatim except a `link` removed for failing the validator — fields
outside `{title, author, description, link}` pass through untouched.  The
second and third conjuncts tie this to the two entry points: any successful
result of either function is the (cleaned) output of this very step on a
3-element parsed response. -/
theorem c10_extra_fields_preserved :
    (∀ rs out, processRecs rs = .ok out →
      out.length = rs.length ∧
      ∀ i fs, rs.get? i = some (.obj fs) →
        ∃ fsOut, out.get? i = some (.obj fsOut) ∧
          (∀ k, k ≠ "link" → lookupField fsOut k = lookupField fs k) ∧
          (∀ v, lookupField fsOut "link" = some v → lookupField fs "link" = some v)) ∧
    (∀ model past to_read m out,
      get_recommendations model past to_read = (m, RecResult.ok out) →
      ∃ rs, rs.length = 3 ∧ processRecs rs = .ok out) ∧
    (∀ model m out, get_quiz_recommendations model = (m, RecResult.ok out) →
      ∃ rs, rs.length = 3 ∧ processRecs rs = .ok out) := by
  refine ⟨?_, fun model p t m out h => recAux_ok model p t 3 m out h,
    fun model m out h => quizAux_ok model 3 0 m out h⟩
  intro rs out hpr
  obtain ⟨holen, hget⟩ := processRecs_get rs out hpr
  refine ⟨holen, ?_⟩
  intro i fs hi
  obtain ⟨e, he, hk, hc⟩ := hget i (.obj fs) hi
  rcases cleanLink_obj fs e hc with ⟨hee, hall⟩ | ⟨v, hv, hbad, hee⟩
  · subst hee
    exact ⟨fs, he, fun k _ => rfl, fun v hv => hv⟩
  · subst hee
    exact ⟨removeField fs "link", he,
      fun k hk2 => lookupField_removeField_ne fs "link" k hk2,
      fun v' hv' => by
        rw [lookupField_removeField_self] at hv'
        exact Option.noConfusion hv'⟩

/-- Witness for C10: a response whose objects carry an extra field `mood`
outside the declared schema is accepted with the extra field intact. -/
theorem c10_witness :
    ([extraFieldRec, extraFieldRec, extraFieldRec] : List Json).length
      = ([extraFieldRec, extraFieldRec, extraFieldRec] : List Json).length ∧
    ∀ i fs, ([extraFieldRec, extraFieldRec, extraFieldRec] : List Json).get? i
        = some (.obj fs) →
      ∃ fsOut, ([extraFieldRec, extraFieldRec, extraFieldRec] : List Json).get? i
          = some (.obj fsOut) ∧
        (∀ k, k ≠ "link" → lookupField fsOut k = lookupField fs k) ∧
        (∀ v, lookupField fsOut "link" = some v → lookupField fs "link" = some v) :=
  c10_extra_fields_preserved.1 [extraFieldRec, extraFieldRec, extraFieldRec]
    [extraFieldRec, extraFieldRec, extraFieldRec] rfl

/-- Claim C9: if the model call in `generate_book_synopsis` fails with any
exception, the function returns (it never raises — the embedding is total) a
deterministic templated fallback: the result does not depend on the book
title, embeds the author's name, and equals one of the two fixed templates
selected by `source`. -/
theorem c9_synopsis_fallback (b1 b2 author source : String) :
    generate_book_synopsis (.error ()) b1 author source
      = generate_book_synopsis (.error ()) b2 author source ∧
    author.data <:+: (generate_book_synopsis (.error ()) b1 author source).data ∧
    generate_book_synopsis (.error ()) b1 author "history"
      = "A great read by " ++ author ++ ". Highly recommend checking it out!" ∧
    generate_book_synopsis (.error ()) b1 author "future"
      = "Excited to read this book by " ++ author ++ ". Looks like it\x27s going to be amazing!" := by
  refine ⟨rfl, ?_, rfl, by rw [generate_book_synopsis, if_neg (by decide)]⟩
  show author.data <:+:
    (if source = "history" then
      "A great read by " ++ author ++ ". Highly recommend checking it out!"
    else
      "Excited to read this book by " ++ author ++ ". Looks like it\x27s going to be amazing!").data
  by_cases h : source = "history"
  · rw [if_pos h, String.data_append, String.data_append]
    exact ⟨"A great read by ".data, ". Highly recommend checking it out!".data, rfl⟩
  · rw [if_neg h, String.data_append, String.data_append]
    exact ⟨"Excited to read this book by ".data,
      ". Looks like it\x27s going to be amazing!".data, rfl⟩
